import Mathlib

/-!
Verification of the data-acquisition and schema-normalization pipeline of
`src/App.tsx` (deck.gl + DuckDB-WASM GeoParquet viewer).

The embedding models, line by line:
  * the discovered schema and column-role resolution (`findCol`, App.tsx:61-68),
  * the geometry-expression builder (`geomExpr`, App.tsx:71-73),
  * the SQL WHERE filter of the generated query (App.tsx:76-85),
  * the result materializer loop (App.tsx:92-99), with `JSON.parse`
    abstracted as a parameter `jparse : String → Option G` (it may fail,
    which aborts the run, as a thrown exception does in the source),
  * publication of the collection (`setData`, App.tsx:100) and the
    completion-order behaviour of overlapping runs (App.tsx:108-111),
  * the connect / try-finally-close structure (App.tsx:44-45, 102-104).
-/

/-- A column descriptor as built at App.tsx:61:
`{ name: n.toLowerCase(), type: (dataTypes[i] || '').toUpperCase() }`. -/
structure Col where
  name : String
  type : String
deriving DecidableEq, Repr

/-- Schema construction (App.tsx:61): pairs each column name with its declared
type, lowercasing names and uppercasing types; a missing or empty type cell
becomes the empty string. -/
def mkSchema (columnNames dataTypes : List String) : List Col :=
  columnNames.mapIdx (fun i n => ⟨n.toLower, (dataTypes.getD i "").toUpper⟩)

/-- The resolver `findCol` (App.tsx:63): `schema.find(c => cands.includes(c.name))` —
scans the SCHEMA in order and returns the first column whose name is among
the candidates. -/
def findCol (cands : List String) (schema : List Col) : Option Col :=
  schema.find? (fun c => cands.contains c.name)

/-- Geometry-role candidate names (App.tsx:64), in source order. -/
def geomCands : List String := ["geometry", "geom", "wkb_geometry", "wkb", "the_geom"]

/-- Attribute-role candidate names (App.tsx:65), in source order. -/
def classCands : List String := ["class", "class_id", "classval", "class_val", "cls", "value", "category"]

/-- JavaScript `x?.f || d` on an optional string: `undefined` and the empty
string both fall through to the default. -/
def jsOrStr (x : Option String) (d : String) : String :=
  match x with
  | none => d
  | some s => if s = "" then d else s

/-- Resolved geometry column name (App.tsx:66): `geomCand?.name || 'geometry'`. -/
def geomColOf (schema : List Col) : String :=
  jsOrStr ((findCol geomCands schema).map Col.name) "geometry"

/-- Resolved geometry column type (App.tsx:67): `geomCand?.type || ''`. -/
def geomTypeOf (schema : List Col) : String :=
  jsOrStr ((findCol geomCands schema).map Col.type) ""

/-- Resolved attribute column name (App.tsx:68): `classCand?.name || 'class'`. -/
def classColOf (schema : List Col) : String :=
  jsOrStr ((findCol classCands schema).map Col.name) "class"

/-- Contiguous-substring test on character lists. -/
def charsInfix (pat : List Char) : List Char → Bool
  | [] => pat.isEmpty
  | c :: rest => pat.isPrefixOf (c :: rest) || charsInfix pat rest

/-- JavaScript `String.prototype.includes`: substring test. -/
def strIncludes (s pat : String) : Bool :=
  charsInfix pat.data s.data

/-- The binary-parse expression template of App.tsx:72. -/
def wkbForm (g : String) : String := "ST_GeomFromWKB(\"" ++ g ++ "\")"

/-- The direct type-cast expression template of App.tsx:73. -/
def castForm (g : String) : String := "TRY_CAST(\"" ++ g ++ "\" AS GEOMETRY)"

/-- The builder `geomExpr` (App.tsx:71-73): route through the WKB parse expression when
the declared type contains `BLOB` or the column name contains `wkb`;
otherwise use the direct cast. -/
def geomExpr (geomCol geomType : String) : String :=
  if strIncludes geomType "BLOB" || strIncludes geomCol "wkb" then wkbForm geomCol
  else castForm geomCol

/-- One source row as seen by the generated query: the value of
`ST_AsGeoJSON(geomExpr)` (nullable text) and of `TRY_CAST(classCol AS INT)`
(nullable integer). -/
structure Row where
  geojson : Option String
  class_val : Option Int
deriving DecidableEq, Repr

/-- A materialized feature (App.tsx:98): a parsed geometry and the
`class_val` property. -/
structure Feature (G : Type) where
  geometry : G
  class_val : Option Int
deriving DecidableEq, Repr

/-- The attribute half of the WHERE clause (App.tsx:84):
`class_val IS NULL OR class_val BETWEEN minVal AND maxVal`. -/
def attrOk (minVal maxVal : Int) (c : Option Int) : Bool :=
  match c with
  | none => true
  | some v => decide (minVal ≤ v) && decide (v ≤ maxVal)

/-- The full WHERE clause (App.tsx:83-84):
`geojson IS NOT NULL AND (class_val IS NULL OR class_val BETWEEN min AND max)`. -/
def rowPasses (minVal maxVal : Int) (r : Row) : Bool :=
  r.geojson.isSome && attrOk minVal maxVal r.class_val

/-- The rows of the query result, in source order (App.tsx:76-86). -/
def sqlRows (minVal maxVal : Int) (rows : List Row) : List Row :=
  rows.filter (rowPasses minVal maxVal)

/-- The materializer loop (App.tsx:93-99). `gs`/`cs` are the two result
arrays; the loop runs over the indices of `gs`. A null or empty geometry
cell is skipped (`if (!geomJson) continue`); a failing `JSON.parse` aborts
the whole run (`Except.error`); otherwise a feature is appended with
`classArr[i] ?? null` as its property. -/
def materialize {G : Type} (jparse : String → Option G) :
    List (Option String) → List (Option Int) → Except Unit (List (Feature G))
  | [], _ => .ok []
  | g :: gs, cs =>
    match g with
    | none => materialize jparse gs (cs.drop 1)
    | some s =>
      if s = "" then materialize jparse gs (cs.drop 1)
      else
        match jparse s with
        | none => .error ()
        | some geom =>
          match materialize jparse gs (cs.drop 1) with
          | .error e => .error e
          | .ok fs => .ok (⟨geom, cs.headD none⟩ :: fs)

/-- The whole `loadData` data path (App.tsx:76-99): run the query, then
materialize its two result columns. -/
def loadData {G : Type} (jparse : String → Option G) (minVal maxVal : Int)
    (rows : List Row) : Except Unit (List (Feature G)) :=
  materialize jparse ((sqlRows minVal maxVal rows).map Row.geojson)
    ((sqlRows minVal maxVal rows).map Row.class_val)

/-- Publication (App.tsx:100): `setData(features)` runs only when the run
reached the end of the `try` block; a thrown error leaves the previous
collection in place. -/
def publish {G : Type} (res : Except Unit (List (Feature G)))
    (last : Option (List (Feature G))) : Option (List (Feature G)) :=
  match res with
  | .ok fs => some fs
  | .error _ => last

/-- Controller behaviour for overlapping runs (App.tsx:100, 108-111): each
completing run calls `setData` unconditionally (the `isCancelled` flag of
App.tsx:22-39 guards only the bootstrap effect's `setDb`), so the published
collection after a sequence of completions is the result of whichever run
COMPLETED last. `results r` is run `r`'s materialized collection and
`completionOrder` lists run identifiers in completion order. -/
def codeFinal {C : Type} (results : Nat → C) (completionOrder : List Nat)
    (last : Option C) : Option C :=
  completionOrder.foldl (fun _ r => some (results r)) last

/-- Connection lifecycle events of one pipeline run: `connect` (App.tsx:44),
the body's engine round-trips and parse steps (`step n`, App.tsx:46-99), and
`close` (App.tsx:103). -/
inductive ConnEv where
  | connect
  | close
  | step (n : Nat)
deriving DecidableEq, Repr

/-- Event trace of one run of `loadData` (App.tsx:44-104): connect, then the
body's steps — truncated at `failAt` when some step throws — then, thanks to
`try { ... } finally { await conn.close() }`, always a close. -/
def runEvents (nBody : Nat) (failAt : Option Nat) : List ConnEv :=
  ConnEv.connect :: (((List.range nBody).map ConnEv.step).take (failAt.getD nBody) ++ [ConnEv.close])

/-- JavaScript truthiness of a nullable string: `!geomJson` is true for both
`null` and the empty string (App.tsx:95). -/
def truthyStr : Option String → Bool
  | none => false
  | some s => s != ""

/-- The rows that actually yield a feature: truthy geometry text AND the
attribute condition. -/
def keepAmended (minVal maxVal : Int) (r : Row) : Bool :=
  truthyStr r.geojson && attrOk minVal maxVal r.class_val

/-- The feature a surviving row becomes, for a total parse `p`. -/
def toFeature {G : Type} (p : String → G) (r : Row) : Feature G :=
  ⟨p (r.geojson.getD ""), r.class_val⟩

/-- Modelled from the claim's words (C2): test the CANDIDATE list in priority
order and return the first schema column carrying the first candidate name
present in the schema. Used only to exhibit the divergence from `findCol`. -/
def specFindCol (cands : List String) (schema : List Col) : Option Col :=
  match cands.find? (fun n => schema.any (fun c => c.name = n)) with
  | none => none
  | some n => schema.find? (fun c => c.name = n)

/-! ### Helper lemmas -/

theorem contains_true_of_mem {α : Type} [BEq α] [LawfulBEq α] {a : α} {l : List α}
    (h : a ∈ l) : l.contains a = true := by
  show l.elem a = true
  exact List.elem_iff.mpr h

theorem contains_false_of_not_mem {α : Type} [BEq α] [LawfulBEq α] {a : α} {l : List α}
    (h : a ∉ l) : l.contains a = false := by
  cases hc : l.contains a with
  | false => rfl
  | true =>
    exfalso
    apply h
    simpa [List.contains, List.elem_iff] using hc

theorem wkbForm_ne_castForm (g : String) : wkbForm g ≠ castForm g := by
  intro h
  have hl := congrArg String.length h
  simp only [wkbForm, castForm, String.length_append] at hl
  have e1 : ("ST_GeomFromWKB(\"" : String).length = 16 := rfl
  have e2 : ("\")" : String).length = 2 := rfl
  have e3 : ("TRY_CAST(\"" : String).length = 10 := rfl
  have e4 : ("\" AS GEOMETRY)" : String).length = 14 := rfl
  rw [e1, e2, e3, e4] at hl
  omega

/-! ### C2 — column-role resolution order -/

/-- C2 (counterexample): on the schema `[geom, geometry]` the source's
`findCol` returns `geom` (first match in SCHEMA order), not `geometry` as
candidate-priority order would demand: it differs from the claim's
candidate-priority resolution `specFindCol` at this concrete schema. -/
theorem c2_counterexample :
    findCol geomCands [⟨"geom", "X"⟩, ⟨"geometry", "Y"⟩] ≠
      specFindCol geomCands [⟨"geom", "X"⟩, ⟨"geometry", "Y"⟩] := by
  decide

/-- C2 (amended): column-role resolution scans the SCHEMA in column order
and the first column whose name lies in the candidate set wins; only
membership in the candidate list matters, not candidate priority. -/
theorem c2_first_schema_match (cands : List String) (l₁ l₂ : List Col) (c : Col)
    (h₁ : ∀ d ∈ l₁, d.name ∉ cands) (h₂ : c.name ∈ cands) :
    findCol cands (l₁ ++ c :: l₂) = some c := by
  induction l₁ with
  | nil =>
    simp only [List.nil_append, findCol]
    exact List.find?_cons_of_pos _ (by simpa using contains_true_of_mem h₂)
  | cons d t ih =>
    have hd : d.name ∉ cands := h₁ d (List.mem_cons_self d t)
    simp only [List.cons_append, findCol]
    rw [List.find?_cons_of_neg _ (by simpa using hd)]
    exact ih (fun x hx => h₁ x (List.mem_cons_of_mem d hx))

/-- C2 (witness): the normalized schema of spec §8.7 — `geom : WKB_BLOB`,
`class_id : INTEGER` — resolves the geometry role to `geom`. -/
theorem c2_first_schema_match_witness :
    findCol geomCands [⟨"geom", "WKB_BLOB"⟩, ⟨"class_id", "INTEGER"⟩] =
      some ⟨"geom", "WKB_BLOB"⟩ :=
  c2_first_schema_match geomCands [] [⟨"class_id", "INTEGER"⟩]
    ⟨"geom", "WKB_BLOB"⟩ (by decide) (by decide)

/-! ### C3 — geometry-expression routing -/

/-- C3: the generated geometry expression is the binary-to-geometry parse
expression exactly when the declared type contains `BLOB` or the column
name contains `wkb`, and the direct type-cast expression exactly otherwise. -/
theorem c3_geomExpr_routing (g t : String) :
    (geomExpr g t = wkbForm g ↔ (strIncludes t "BLOB" || strIncludes g "wkb") = true) ∧
    (geomExpr g t = castForm g ↔ (strIncludes t "BLOB" || strIncludes g "wkb") = false) := by
  have hne : wkbForm g ≠ castForm g := wkbForm_ne_castForm g
  unfold geomExpr
  cases h : (strIncludes t "BLOB" || strIncludes g "wkb") with
  | true => simp [hne]
  | false => simp [hne, Ne.symm hne]

/-! ### C6 — literal fallbacks when no candidate matches -/

/-- C6: when no schema column name matches any geometry candidate and none
matches any attribute candidate, the resolved column names default to the
literals `geometry` and `class`. -/
theorem c6_default_roles (schema : List Col)
    (hg : ∀ c ∈ schema, c.name ∉ geomCands) (ha : ∀ c ∈ schema, c.name ∉ classCands) :
    geomColOf schema = "geometry" ∧ classColOf schema = "class" := by
  have hfg : findCol geomCands schema = none := by
    apply List.find?_eq_none.mpr
    intro c hc
    simpa using hg c hc
  have hfa : findCol classCands schema = none := by
    apply List.find?_eq_none.mpr
    intro c hc
    simpa using ha c hc
  constructor
  · simp [geomColOf, hfg, jsOrStr]
  · simp [classColOf, hfa, jsOrStr]

/-- C6 (witness): a schema with only unmatched names falls back to the
literal role names. -/
theorem c6_default_roles_witness :
    geomColOf [⟨"foo", "X"⟩, ⟨"bar", "Y"⟩] = "geometry" ∧
      classColOf [⟨"foo", "X"⟩, ⟨"bar", "Y"⟩] = "class" :=
  c6_default_roles [⟨"foo", "X"⟩, ⟨"bar", "Y"⟩] (by decide) (by decide)

/-! ### C9 — the fallback column always takes the cast branch -/

/-- C9: when no geometry candidate matches, the resolved type defaults to
the empty string and the generated query routes the fallback `geometry`
column through the direct type-cast expression, never the WKB parse. -/
theorem c9_fallback_cast (schema : List Col)
    (hg : ∀ c ∈ schema, c.name ∉ geomCands) :
    geomTypeOf schema = "" ∧
      geomExpr (geomColOf schema) (geomTypeOf schema) = "TRY_CAST(\"geometry\" AS GEOMETRY)" := by
  have hfg : findCol geomCands schema = none := by
    apply List.find?_eq_none.mpr
    intro c hc
    simpa using hg c hc
  have hty : geomTypeOf schema = "" := by simp [geomTypeOf, hfg, jsOrStr]
  have hcol : geomColOf schema = "geometry" := by simp [geomColOf, hfg, jsOrStr]
  refine ⟨hty, ?_⟩
  rw [hty, hcol]
  decide

/-- C9 (witness): a schema with no geometry-candidate name routes the
fallback through the cast expression. -/
theorem c9_fallback_cast_witness :
    geomTypeOf [⟨"foo", "BLOB"⟩] = "" ∧
      geomExpr (geomColOf [⟨"foo", "BLOB"⟩]) (geomTypeOf [⟨"foo", "BLOB"⟩]) =
        "TRY_CAST(\"geometry\" AS GEOMETRY)" :=
  c9_fallback_cast [⟨"foo", "BLOB"⟩] (by decide)

/-! ### Materializer lemmas -/

theorem filter_bool_and {α : Type} (p q : α → Bool) (l : List α) :
    l.filter (fun a => p a && q a) = (l.filter p).filter q := by
  induction l with
  | nil => rfl
  | cons a t ih =>
    cases hp : p a <;> cases hq : q a <;>
      simp [List.filter_cons, hp, hq, ih]

theorem keepAmended_eq (minVal maxVal : Int) (r : Row) :
    keepAmended minVal maxVal r =
      (rowPasses minVal maxVal r && truthyStr r.geojson) := by
  cases hg : r.geojson <;>
    simp [keepAmended, rowPasses, truthyStr, hg, Bool.and_comm]

theorem materialize_total {G : Type} (jparse : String → Option G) (p : String → G)
    (hp : ∀ s, s ≠ "" → jparse s = some (p s)) (l : List Row) :
    materialize jparse (l.map Row.geojson) (l.map Row.class_val) =
      Except.ok ((l.filter (fun r => truthyStr r.geojson)).map (toFeature p)) := by
  induction l with
  | nil => rfl
  | cons r t ih =>
    cases hg : r.geojson with
    | none =>
      simp [materialize, List.filter_cons, truthyStr, hg, ih]
    | some s =>
      by_cases hs : s = ""
      · subst hs
        simp [materialize, List.filter_cons, truthyStr, hg, ih]
      · simp [materialize, List.filter_cons, truthyStr, hg, hs, hp s hs, ih,
          toFeature]

/-! ### C1 — contents and order of the materialized collection -/

/-- C1 (counterexample): with a total geometry parser, a row whose textual
geometry is the NON-NULL empty string and whose attribute is null satisfies
the claim's membership condition (and the SQL WHERE clause keeps it), yet
the materialized collection is empty: `if (!geomJson) continue` also skips
empty strings. -/
theorem c1_counterexample :
    loadData (fun s : String => some s) 1 25 [⟨some "", none⟩] = Except.ok [] ∧
      ([(⟨some "", none⟩ : Row)].filter (rowPasses 1 25)).length = 1 := by
  constructor
  · rfl
  · rfl

/-- C1 (amended): for every run whose truthy geometry texts all parse, the
materialized collection consists of exactly the rows whose textual geometry
is non-null AND NON-EMPTY and whose attribute is null or within
`[min, max]` inclusive, in source-row order. -/
theorem c1_collection_exact {G : Type} (jparse : String → Option G) (p : String → G)
    (hp : ∀ s, s ≠ "" → jparse s = some (p s)) (minVal maxVal : Int) (rows : List Row) :
    loadData jparse minVal maxVal rows =
      Except.ok ((rows.filter (keepAmended minVal maxVal)).map (toFeature p)) := by
  have h1 : rows.filter (keepAmended minVal maxVal) =
      (rows.filter (rowPasses minVal maxVal)).filter (fun r => truthyStr r.geojson) := by
    rw [← filter_bool_and]
    exact List.filter_congr (fun r _ => keepAmended_eq minVal maxVal r)
  rw [h1]
  unfold loadData sqlRows
  exact materialize_total jparse p hp (rows.filter (rowPasses minVal maxVal))

/-- C1 (witness): a concrete dataset — a surviving row, a null-geometry row,
an empty-geometry row, and an out-of-range row — materializes to exactly the
one surviving feature. -/
theorem c1_collection_exact_witness :
    loadData (fun s : String => some s.length) 1 25
        [⟨some "g1", some 3⟩, ⟨none, some 5⟩, ⟨some "", none⟩, ⟨some "poly", some 99⟩] =
      Except.ok [⟨2, some 3⟩] := by
  have h := c1_collection_exact (fun s : String => some s.length) String.length
    (fun s _ => rfl) 1 25
    [⟨some "g1", some 3⟩, ⟨none, some 5⟩, ⟨some "", none⟩, ⟨some "poly", some 99⟩]
  rw [h]
  rfl

theorem materialize_fails {G : Type} (jparse : String → Option G) (s : String)
    (hs : s ≠ "") (hfail : jparse s = none) (gs : List (Option String)) :
    ∀ cs : List (Option Int), some s ∈ gs → materialize jparse gs cs = Except.error () := by
  induction gs with
  | nil =>
    intro cs hmem
    cases hmem
  | cons g t ih =>
    intro cs hmem
    rcases List.mem_cons.mp hmem with heq | htail
    · rw [← heq]
      simp [materialize, hs, hfail]
    · cases g with
      | none => simpa [materialize] using ih (cs.drop 1) htail
      | some s' =>
        by_cases hs' : s' = ""
        · simpa [materialize, hs'] using ih (cs.drop 1) htail
        · cases hjp : jparse s' with
          | none => simp [materialize, hs', hjp]
          | some geom =>
            have h := ih (cs.drop 1) htail
            rw [List.drop_one] at h
            simp [materialize, hs', hjp, h]

/-! ### C5 — a single geometry-parse failure aborts the whole run -/

/-- C5: if any row surviving the WHERE clause has a truthy geometry text on
which the geometry parser fails, the entire run fails — no collection is
produced — and the published collection stays at its previous value. -/
theorem c5_parse_failure_fatal {G : Type} (jparse : String → Option G)
    (minVal maxVal : Int) (rows : List Row) (r : Row) (s : String)
    (last : Option (List (Feature G)))
    (hmem : r ∈ rows) (hpass : rowPasses minVal maxVal r = true)
    (hg : r.geojson = some s) (hs : s ≠ "") (hfail : jparse s = none) :
    loadData jparse minVal maxVal rows = Except.error () ∧
      publish (loadData jparse minVal maxVal rows) last = last := by
  have hr : r ∈ sqlRows minVal maxVal rows := List.mem_filter.mpr ⟨hmem, hpass⟩
  have hgs : some s ∈ (sqlRows minVal maxVal rows).map Row.geojson :=
    List.mem_map.mpr ⟨r, hr, by rw [hg]⟩
  have herr : loadData jparse minVal maxVal rows = Except.error () :=
    materialize_fails jparse s hs hfail _ _ hgs
  refine ⟨herr, ?_⟩
  rw [herr]
  rfl

/-- C5 (witness): a run over a single bad-geometry row fails and the
previous one-feature collection survives untouched. -/
theorem c5_parse_failure_fatal_witness :
    loadData (fun _ : String => (none : Option Nat)) 1 25 [⟨some "bad", some 2⟩] =
        Except.error () ∧
      publish (loadData (fun _ : String => (none : Option Nat)) 1 25 [⟨some "bad", some 2⟩])
          (some [⟨7, none⟩]) =
        some [⟨7, none⟩] :=
  c5_parse_failure_fatal (fun _ : String => (none : Option Nat)) 1 25
    [⟨some "bad", some 2⟩] ⟨some "bad", some 2⟩ "bad" (some [⟨7, none⟩])
    (by decide) (by decide) rfl (by decide) rfl

theorem materialize_allnone {G : Type} (jparse : String → Option G)
    (gs : List (Option String)) :
    ∀ (cs : List (Option Int)) (fs : List (Feature G)), (∀ c ∈ cs, c = none) →
      materialize jparse gs cs = Except.ok fs → ∀ f ∈ fs, f.class_val = none := by
  induction gs with
  | nil =>
    intro cs fs _ h f hf
    simp [materialize] at h
    subst h
    cases hf
  | cons g t ih =>
    intro cs fs hcs h f hf
    have hdrop : ∀ c ∈ cs.drop 1, c = none :=
      fun c hc => hcs c (List.drop_subset 1 cs hc)
    cases g with
    | none =>
      simp only [materialize] at h
      exact ih (cs.drop 1) fs hdrop h f hf
    | some s =>
      by_cases hs : s = ""
      · subst hs
        simp only [materialize, if_pos rfl] at h
        exact ih (cs.drop 1) fs hdrop h f hf
      · cases hjp : jparse s with
        | none => simp [materialize, hs, hjp] at h
        | some geom =>
          simp only [materialize, if_neg hs, hjp] at h
          cases hm : materialize jparse t (cs.drop 1) with
          | error e =>
            rw [hm] at h
            exact Except.noConfusion
              (show (Except.error e : Except Unit (List (Feature G))) = Except.ok fs from h)
          | ok fs' =>
            rw [hm] at h
            have hfs := Except.ok.inj
              (show Except.ok (⟨geom, cs.headD none⟩ :: fs') = Except.ok fs from h)
            rw [← hfs] at hf
            rcases List.mem_cons.mp hf with rfl | hf'
            · show cs.headD none = none
              cases cs with
              | nil => rfl
              | cons c cr => exact hcs c (List.mem_cons_self c cr)
            · exact ih (cs.drop 1) fs' hdrop hm f hf'

/-! ### C7 — inverted range keeps only null-attribute rows -/

/-- C7: when `min > max`, every feature of a successful run carries a null
attribute — no non-null attribute can satisfy the inverted range. -/
theorem c7_inverted_range_null_only {G : Type} (jparse : String → Option G)
    (minVal maxVal : Int) (rows : List Row) (fs : List (Feature G))
    (hinv : maxVal < minVal) (hok : loadData jparse minVal maxVal rows = Except.ok fs) :
    ∀ f ∈ fs, f.class_val = none := by
  have hall : ∀ c ∈ (sqlRows minVal maxVal rows).map Row.class_val, c = none := by
    intro c hc
    rcases List.mem_map.mp hc with ⟨r, hr, hcr⟩
    have hp := (List.mem_filter.mp hr).2
    cases hv : r.class_val with
    | none => rw [← hcr, hv]
    | some v =>
      exfalso
      simp [rowPasses, attrOk, hv] at hp
      omega
  exact materialize_allnone jparse _ _ fs hall hok

/-- C7 (witness): with the inverted range `min = 10 > max = 5`, the run keeps
only the null-attribute row, whose feature has a null property. -/
theorem c7_inverted_range_null_only_witness :
    (⟨1, none⟩ : Feature Nat).class_val = none :=
  c7_inverted_range_null_only (fun s : String => some s.length) 10 5
    [⟨some "a", none⟩, ⟨some "b", some 7⟩] [⟨1, none⟩] (by decide) rfl
    ⟨1, none⟩ (by decide)

theorem drop_one_getD {α : Type} (cs : List α) (i : Nat) (d : α) :
    (cs.drop 1).getD i d = cs.getD (i + 1) d := by
  cases cs <;> rfl

theorem headD_eq_getD_zero {α : Type} (cs : List α) (d : α) :
    cs.headD d = cs.getD 0 d := by
  cases cs <;> rfl

/-! ### C10 — every feature's attribute is the null-coalesced cell -/

/-- C10: every feature of a successful materialization carries as its
`class_val` property the value `classArr[i] ?? null` for some index `i`: a
number or null, and null whenever the attribute array has no cell there
(shorter array) or the cell itself is null. -/
theorem c10_class_val_coalesced {G : Type} (jparse : String → Option G)
    (gs : List (Option String)) (cs : List (Option Int)) (fs : List (Feature G))
    (h : materialize jparse gs cs = Except.ok fs) :
    ∀ f ∈ fs, ∃ i, f.class_val = cs.getD i none ∧
      (cs.length ≤ i → f.class_val = none) := by
  induction gs generalizing cs fs with
  | nil =>
    intro f hf
    simp [materialize] at h
    subst h
    cases hf
  | cons g t ih =>
    intro f hf
    have step : ∀ fs', materialize jparse t (cs.drop 1) = Except.ok fs' → f ∈ fs' →
        ∃ i, f.class_val = cs.getD i none ∧ (cs.length ≤ i → f.class_val = none) := by
      intro fs' h' hf'
      rcases ih (cs.drop 1) fs' h' f hf' with ⟨i, hi, hnull⟩
      refine ⟨i + 1, ?_, ?_⟩
      · rw [hi, drop_one_getD]
      · intro hlen
        apply hnull
        cases cs with
        | nil => simp
        | cons c cr => simpa using Nat.le_of_succ_le_succ (by simpa using hlen)
    cases g with
    | none =>
      simp only [materialize] at h
      exact step fs h hf
    | some s =>
      by_cases hs : s = ""
      · subst hs
        simp only [materialize, if_pos rfl] at h
        exact step fs h hf
      · cases hjp : jparse s with
        | none => simp [materialize, hs, hjp] at h
        | some geom =>
          simp only [materialize, if_neg hs, hjp] at h
          cases hm : materialize jparse t (cs.drop 1) with
          | error e =>
            rw [hm] at h
            exact Except.noConfusion
              (show (Except.error e : Except Unit (List (Feature G))) = Except.ok fs from h)
          | ok fs' =>
            rw [hm] at h
            have hfs := Except.ok.inj
              (show Except.ok (⟨geom, cs.headD none⟩ :: fs') = Except.ok fs from h)
            rw [← hfs] at hf
            rcases List.mem_cons.mp hf with rfl | hf'
            · refine ⟨0, ?_, ?_⟩
              · show cs.headD none = cs.getD 0 none
                exact headD_eq_getD_zero cs none
              · intro hlen
                have : cs = [] := List.length_eq_zero.mp (Nat.le_zero.mp hlen)
                subst this
                rfl
            · exact step fs' hm hf'

/-- C10 (witness): a geometry array of length two with an attribute array of
length one — the second feature, beyond the attribute array, has its
property coalesced to null. -/
theorem c10_class_val_coalesced_witness :
    ∃ i, (⟨1, none⟩ : Feature Nat).class_val = ([some 7] : List (Option Int)).getD i none ∧
      (([some 7] : List (Option Int)).length ≤ i →
        (⟨1, none⟩ : Feature Nat).class_val = none) :=
  c10_class_val_coalesced (fun s : String => some s.length)
    [some "ab", some "c"] [some 7] [⟨2, some 7⟩, ⟨1, none⟩] rfl ⟨1, none⟩ (by decide)

/-! ### C4 — staleness of superseded runs -/

/-- C4: the source publishes every completed run unconditionally, so after
completions in the order "newer run B (id 1) first, superseded run A (id 0)
second" the final published collection is run A's — the stale result IS
published, contrary to the claim's guarantee. Run 1 is the most recently
triggered; the claim demands `some (results 1)`. -/
theorem c4_stale_run_published :
    codeFinal (fun r => r) [1, 0] (none : Option Nat) = some 0 ∧
      some 0 ≠ (some 1 : Option Nat) := by
  constructor
  · rfl
  · decide

/-! ### C8 — connection lifecycle -/

theorem count_connect_steps (nBody k : Nat) :
    (((List.range nBody).map ConnEv.step).take k).count ConnEv.connect = 0 := by
  apply List.count_eq_zero.mpr
  intro hmem
  have hmem' := List.take_subset k _ hmem
  rcases List.mem_map.mp hmem' with ⟨n, _, hn⟩
  cases hn

theorem count_close_steps (nBody k : Nat) :
    (((List.range nBody).map ConnEv.step).take k).count ConnEv.close = 0 := by
  apply List.count_eq_zero.mpr
  intro hmem
  have hmem' := List.take_subset k _ hmem
  rcases List.mem_map.mp hmem' with ⟨n, _, hn⟩
  cases hn

/-- C8: every pipeline run's event trace — for any body length and any
failure point, including none — opens exactly one connection, closes it
exactly once, and the close is the final event of the run. -/
theorem c8_connection_scoped (nBody : Nat) (failAt : Option Nat) :
    (runEvents nBody failAt).count ConnEv.connect = 1 ∧
      (runEvents nBody failAt).count ConnEv.close = 1 ∧
      (runEvents nBody failAt).getLast? = some ConnEv.close := by
  refine ⟨?_, ?_, ?_⟩
  · simp [runEvents, List.count_cons, List.count_append, count_connect_steps]
  · simp [runEvents, List.count_cons, List.count_append, count_close_steps]
  · show (ConnEv.connect :: (_ ++ [ConnEv.close])).getLast? = some ConnEv.close
    rw [← List.cons_append]
    exact List.getLast?_concat _
